/-
Verification of the ingestion-to-grounded-answer pipeline of a RAG backend.

The Python sources under `backend/app` are shallowly embedded below:
pure functions become Lean functions, database/vector-index state becomes
explicit record state, external collaborators (embedding model, Qdrant
client, LLM, file system) become explicit parameters, and machine floats
are modelled by exact rationals (scores produced by the local cosine
fallback are represented by the pair (dot product, squared norm product),
whose mathematical value is `dot / Real.sqrt prod`).
-/
import Mathlib

namespace RagPipeline

attribute [local semireducible] Rat.add Rat.sub Rat.mul Rat.inv

/-! ### SHA-256 (`hashlib.sha256`), byte and hex utilities

The checksum utility (`app/utils/checksum.py`) and the chunk identifier
generator (`app/utils/chunker.py`) both call `hashlib.sha256`; we embed
SHA-256 itself, operating on lists of byte values (`ℕ` below `256`). -/

/-- 32-bit right rotation (values are naturals below `2^32`). -/
def rotr32 (n x : ℕ) : ℕ := ((x >>> n) ||| (x <<< (32 - n))) % 4294967296

/-- 32-bit bitwise complement. -/
def not32 (x : ℕ) : ℕ := x ^^^ 4294967295

def sha_ch (x y z : ℕ) : ℕ := (x &&& y) ^^^ (not32 x &&& z)

def sha_maj (x y z : ℕ) : ℕ := (x &&& y) ^^^ (x &&& z) ^^^ (y &&& z)

def sha_bsig0 (x : ℕ) : ℕ := rotr32 2 x ^^^ rotr32 13 x ^^^ rotr32 22 x

def sha_bsig1 (x : ℕ) : ℕ := rotr32 6 x ^^^ rotr32 11 x ^^^ rotr32 25 x

def sha_ssig0 (x : ℕ) : ℕ := rotr32 7 x ^^^ rotr32 18 x ^^^ (x >>> 3)

def sha_ssig1 (x : ℕ) : ℕ := rotr32 17 x ^^^ rotr32 19 x ^^^ (x >>> 10)

/-- The SHA-256 round constants. -/
def shaK : List ℕ :=
  [1116352408, 1899447441, 3049323471, 3921009573, 961987163,
   1508970993, 2453635748, 2870763221, 3624381080, 310598401,
   607225278, 1426881987, 1925078388, 2162078206, 2614888103,
   3248222580, 3835390401, 4022224774, 264347078, 604807628,
   770255983, 1249150122, 1555081692, 1996064986, 2554220882,
   2821834349, 2952996808, 3210313671, 3336571891, 3584528711,
   113926993, 338241895, 666307205, 773529912, 1294757372,
   1396182291, 1695183700, 1986661051, 2177026350, 2456956037,
   2730485921, 2820302411, 3259730800, 3345764771, 3516065817,
   3600352804, 4094571909, 275423344, 430227734, 506948616,
   659060556, 883997877, 958139571, 1322822218, 1537002063,
   1747873779, 1955562222, 2024104815, 2227730452, 2361852424,
   2428436474, 2756734187, 3204031479, 3329325298]

/-- The SHA-256 initial hash state. -/
def shaH0 : List ℕ :=
  [1779033703, 3144134277, 1013904242, 2773480762,
   1359893119, 2600822924, 528734635, 1541459225]

/-- Big-endian bytes of `n`, `len` bytes wide. -/
def natToBytesBE (n len : ℕ) : List ℕ :=
  (List.range len).map fun i => (n >>> (8 * (len - 1 - i))) % 256

/-- Interpret four consecutive bytes as one big-endian 32-bit word. -/
def wordsOfBytes : List ℕ → List ℕ
  | b0 :: b1 :: b2 :: b3 :: rest =>
      (b0 <<< 24 ||| b1 <<< 16 ||| b2 <<< 8 ||| b3) :: wordsOfBytes rest
  | _ => []

/-- Extend the 16-word message schedule by `n` further words. -/
def shaExtend : ℕ → List ℕ → List ℕ
  | 0, ws => ws
  | n + 1, ws =>
      let L := ws.length
      let next := (sha_ssig1 (ws.getD (L - 2) 0) + ws.getD (L - 7) 0 +
        sha_ssig0 (ws.getD (L - 15) 0) + ws.getD (L - 16) 0) % 4294967296
      shaExtend n (ws ++ [next])

/-- Working state of the SHA-256 compression loop. -/
structure ShaState where
  a : ℕ
  b : ℕ
  c : ℕ
  d : ℕ
  e : ℕ
  f : ℕ
  g : ℕ
  h : ℕ
deriving Repr, DecidableEq

/-- One SHA-256 compression round with constant `k` and schedule word `w`. -/
def shaRound (st : ShaState) (kw : ℕ × ℕ) : ShaState :=
  let t1 := (st.h + sha_bsig1 st.e + sha_ch st.e st.f st.g + kw.1 + kw.2) % 4294967296
  let t2 := (sha_bsig0 st.a + sha_maj st.a st.b st.c) % 4294967296
  { a := (t1 + t2) % 4294967296, b := st.a, c := st.b, d := st.c,
    e := (st.d + t1) % 4294967296, f := st.e, g := st.f, h := st.g }

/-- Compress one 64-byte block into the running 8-word hash value. -/
def shaCompress (hv : List ℕ) (block : List ℕ) : List ℕ :=
  let ws := shaExtend 48 (wordsOfBytes block)
  let init : ShaState :=
    { a := hv.getD 0 0, b := hv.getD 1 0, c := hv.getD 2 0, d := hv.getD 3 0,
      e := hv.getD 4 0, f := hv.getD 5 0, g := hv.getD 6 0, h := hv.getD 7 0 }
  let fin := (shaK.zip ws).foldl shaRound init
  [(hv.getD 0 0 + fin.a) % 4294967296, (hv.getD 1 0 + fin.b) % 4294967296,
   (hv.getD 2 0 + fin.c) % 4294967296, (hv.getD 3 0 + fin.d) % 4294967296,
   (hv.getD 4 0 + fin.e) % 4294967296, (hv.getD 5 0 + fin.f) % 4294967296,
   (hv.getD 6 0 + fin.g) % 4294967296, (hv.getD 7 0 + fin.h) % 4294967296]

/-- SHA-256 padding: `0x80`, zeros to 56 mod 64, then the 64-bit bit length. -/
def shaPad (msg : List ℕ) : List ℕ :=
  msg ++ [0x80] ++ List.replicate ((119 - msg.length % 64) % 64) 0 ++
    natToBytesBE (msg.length * 8) 8

/-- Split a byte list into 64-byte blocks. Structural recursion on a fuel
argument so that the kernel can evaluate it; the fuel is consumed at most
once per 64 extracted bytes, so `l.length` fuel always suffices. -/
def blocks64Go : ℕ → List ℕ → List (List ℕ)
  | 0, _ => []
  | _, [] => []
  | fuel + 1, x :: xs => ((x :: xs).take 64) :: blocks64Go fuel ((x :: xs).drop 64)

/-- Split a byte list into 64-byte blocks. -/
def blocks64 (l : List ℕ) : List (List ℕ) := blocks64Go l.length l

/-- SHA-256 digest of a byte list, as the list of 32 digest bytes. -/
def sha256Bytes (msg : List ℕ) : List ℕ :=
  (((blocks64 (shaPad msg)).foldl shaCompress shaH0).map fun w =>
    natToBytesBE w 4).flatten

/-- UTF-8 encoding of one character (Python `str.encode('utf-8')`). -/
def charUtf8 (c : Char) : List ℕ :=
  let n := c.toNat
  if n < 0x80 then [n]
  else if n < 0x800 then [0xC0 ||| (n >>> 6), 0x80 ||| (n &&& 0x3F)]
  else if n < 0x10000 then
    [0xE0 ||| (n >>> 12), 0x80 ||| ((n >>> 6) &&& 0x3F), 0x80 ||| (n &&& 0x3F)]
  else
    [0xF0 ||| (n >>> 18), 0x80 ||| ((n >>> 12) &&& 0x3F),
     0x80 ||| ((n >>> 6) &&& 0x3F), 0x80 ||| (n &&& 0x3F)]

/-- UTF-8 bytes of a string. -/
def strUtf8 (s : String) : List ℕ := (s.data.map charUtf8).flatten

/-- Lowercase hex digit for a value below 16. -/
def hexDigit (n : ℕ) : Char := if n < 10 then Char.ofNat (48 + n) else Char.ofNat (87 + n)

/-- Two lowercase hex digits of one byte. -/
def byteHex (n : ℕ) : List Char := [hexDigit (n / 16 % 16), hexDigit (n % 16)]

/-- Lowercase hex string of a byte list (Python `.hexdigest()` shape). -/
def bytesToHex (bs : List ℕ) : String := ⟨(bs.map byteHex).flatten⟩

/-- `calculate_sha256` (`app/utils/checksum.py`): the string is UTF-8
encoded and hashed; the digest is returned as lowercase hex. -/
def calculate_sha256 (content : String) : String :=
  bytesToHex (sha256Bytes (strUtf8 content))

/-- `str(uuid.UUID(bytes=b))` for a 16-byte list: hex in 8-4-4-4-12 groups. -/
def uuidOfBytes (bs : List ℕ) : String :=
  ⟨((bs.take 4).map byteHex).flatten ++ '-' ::
    (((bs.drop 4).take 2).map byteHex).flatten ++ '-' ::
    (((bs.drop 6).take 2).map byteHex).flatten ++ '-' ::
    (((bs.drop 8).take 2).map byteHex).flatten ++ '-' ::
    ((bs.drop 10).map byteHex).flatten⟩

/-! ### Chunker (`app/utils/chunker.py`)

Python strings are modelled as `List Char` (Python indexes by code point,
as does `List Char`). `DocumentChunker.chunk_document` is embedded with
the resolved `self.chunk_size` / `self.chunk_overlap` as explicit natural
arguments; the constructor's `chunk_size or settings.chunk_size`
defaulting (note: Python `or` also replaces an explicit `0`) is embedded
separately in `chunk_document_fn`. The `while` loop is embedded by
structural recursion on a fuel argument; `content.length + 1` fuel is
sufficient whenever `1 ≤ chunk_size` because the cursor strictly
advances (with `chunk_size = 0` the Python loop never terminates). -/

/-- A chunk produced by the chunker (`@dataclass Chunk`). -/
structure PyChunk where
  content : List Char
  index : ℕ
  id : String
deriving Repr, DecidableEq

/-- `DocumentChunker._generate_chunk_id`: SHA-256 of
`"{doc_id}:{chunk_index}:{content[:100]}"`, first 16 digest bytes read as
a UUID string. -/
def _generate_chunk_id (content : List Char) (doc_id : String) (chunk_index : ℕ) : String :=
  let identifier := doc_id ++ ":" ++ toString chunk_index ++ ":" ++ String.mk (content.take 100)
  uuidOfBytes ((sha256Bytes (strUtf8 identifier)).take 16)

/-- Sentence terminators `'.!?'`. -/
def isSentenceEnd (c : Char) : Bool := c == '.' || c == '!' || c == '?'

/-- Word boundaries `' \t\n'`. -/
def isWordBoundary (c : Char) : Bool := c == ' ' || c == '\t' || c == '\n'

/-- `for i in range(hi, lo, -1): if pred(content[i]): return i + 1` —
the backward scan for a breaking point, from index `hi` down to `lo + 1`. -/
def scanBreak (content : List Char) (pred : Char → Bool) (lo : ℕ) : ℕ → Option ℕ
  | 0 => none
  | i + 1 =>
      if i + 1 ≤ lo then none
      else if pred (content.getD (i + 1) ' ') then some (i + 2)
      else scanBreak content pred lo i

/-- The end index chosen for the chunk starting at `start` (lines 52–80 of
`chunker.py`): tentatively `start + chunk_size`; for a non-final chunk,
look back up to 50 characters for a sentence end, then for whitespace,
and use the breaking point when it lies strictly after `start`. -/
def chunkEnd (content : List Char) (chunk_size start : ℕ) : ℕ :=
  let end0 := start + chunk_size
  if end0 < content.length then
    let searchStart := max (end0 - 50) start
    let hi := min end0 content.length - 1
    let sb := match scanBreak content isSentenceEnd searchStart hi with
      | some b => some b
      | none => scanBreak content isWordBoundary searchStart hi
    match sb with
    | some b => if start < b then b else min end0 content.length
    | none => min end0 content.length
  else end0

/-- The chunking `while` loop (lines 51–101 of `chunker.py`), with fuel. -/
def chunkLoop (content : List Char) (doc_id : String) (chunk_size chunk_overlap : ℕ) :
    ℕ → ℕ → ℕ → List PyChunk
  | 0, _, _ => []
  | fuel + 1, start, idx =>
      if start < content.length then
        let e := chunkEnd content chunk_size start
        let text := (content.drop start).take (e - start)
        { content := text, index := idx, id := _generate_chunk_id text doc_id idx } ::
          chunkLoop content doc_id chunk_size chunk_overlap fuel
            (max (e - chunk_overlap) e) (idx + 1)
      else []

/-- `DocumentChunker.chunk_document` with the instance's resolved
`chunk_size` and `chunk_overlap`. -/
def chunk_documentL (content : List Char) (doc_id : String) (chunk_size chunk_overlap : ℕ) :
    List PyChunk :=
  if content = [] then [] else
    chunkLoop content doc_id chunk_size chunk_overlap (content.length + 1) 0 0

/-- The module-level `chunk_document` convenience function: constructs a
`DocumentChunker`, whose `__init__` resolves `chunk_size or
settings.chunk_size` and `chunk_overlap or settings.chunk_overlap`
(defaults 1000 and 200; Python `or` treats `0` and `None` alike). -/
def chunk_document_fn (content : List Char) (doc_id : String)
    (chunk_size chunk_overlap : Option ℕ) : List PyChunk :=
  let size := match chunk_size with
    | some n => if n = 0 then 1000 else n
    | none => 1000
  let ov := match chunk_overlap with
    | some n => if n = 0 then 200 else n
    | none => 200
  chunk_documentL content doc_id size ov

/-! ### Chunker lemmas -/

/-- The chosen end index lies strictly beyond the cursor whenever the
cursor is inside the text and `1 ≤ chunk_size`. -/
theorem lt_chunkEnd (content : List Char) (chunk_size start : ℕ)
    (hsize : 1 ≤ chunk_size) (h : start < content.length) :
    start < chunkEnd content chunk_size start := by
  unfold chunkEnd
  by_cases h0 : start + chunk_size < content.length
  · simp only [h0, if_true]
    split
    · split
      · assumption
      · exact lt_min (by omega) h
    · exact lt_min (by omega) h
  · simp only [h0, if_false]
    omega

/-- The cursor advance `max(end - overlap, end)` always equals `end`. -/
theorem cursor_advance_eq_end (e ov : ℕ) : max (e - ov) e = e :=
  Nat.max_eq_right (Nat.sub_le e ov)

/-- Once the cursor has reached the end of the text, the loop stops. -/
theorem chunkLoop_stop (content : List Char) (doc_id : String) (s o : ℕ)
    (fuel start idx : ℕ) (h : content.length ≤ start) :
    chunkLoop content doc_id s o fuel start idx = [] := by
  cases fuel with
  | zero => rfl
  | succ n => simp [chunkLoop, Nat.not_lt.mpr h]

/-- Concatenating the chunk texts recovers the suffix of the text from the
cursor, given enough fuel. -/
theorem chunkLoop_flatten (content : List Char) (doc_id : String) (s o : ℕ)
    (hsize : 1 ≤ s) :
    ∀ fuel start idx, content.length - start ≤ fuel →
      ((chunkLoop content doc_id s o fuel start idx).map (·.content)).flatten =
        content.drop start := by
  intro fuel
  induction fuel with
  | zero =>
      intro start idx h
      rw [chunkLoop, List.drop_eq_nil_of_le (by omega)]
      rfl
  | succ n ih =>
      intro start idx h
      by_cases hs : start < content.length
      · have he := lt_chunkEnd content s start hsize hs
        simp only [chunkLoop, hs, if_true, List.map_cons, List.flatten_cons,
          cursor_advance_eq_end]
        rw [ih _ (idx + 1) (by omega)]
        have hdd : content.drop (chunkEnd content s start) =
            (content.drop start).drop (chunkEnd content s start - start) := by
          rw [List.drop_drop]
          congr 1
          omega
        rw [hdd, List.take_append_drop]
      · rw [chunkLoop_stop _ _ _ _ _ _ _ (by omega),
          List.drop_eq_nil_of_le (by omega)]
        rfl

/-- The loop ignores the configured overlap entirely: the next cursor is
always exactly the previous end. -/
theorem chunkLoop_overlap_irrelevant (content : List Char) (doc_id : String) (s o : ℕ) :
    ∀ fuel start idx,
      chunkLoop content doc_id s o fuel start idx =
        chunkLoop content doc_id s 0 fuel start idx := by
  intro fuel
  induction fuel with
  | zero => intro start idx; rfl
  | succ n ih =>
      intro start idx
      by_cases hs : start < content.length
      · simp only [chunkLoop, hs, if_true, cursor_advance_eq_end, Nat.sub_zero,
          Nat.max_self]
        rw [ih]
      · simp [chunkLoop, hs]

/-- Every produced chunk's identifier is `_generate_chunk_id` of its own
text and index. -/
theorem chunkLoop_id_formula (content : List Char) (doc_id : String) (s o : ℕ) :
    ∀ fuel start idx, ∀ c ∈ chunkLoop content doc_id s o fuel start idx,
      c.id = _generate_chunk_id c.content doc_id c.index := by
  intro fuel
  induction fuel with
  | zero => intro start idx c hc; cases hc
  | succ n ih =>
      intro start idx c hc
      by_cases hs : start < content.length
      · simp only [chunkLoop, hs, if_true, List.mem_cons] at hc
        rcases hc with rfl | hc
        · rfl
        · exact ih _ _ c hc
      · simp [chunkLoop, hs] at hc

/-- The produced chunk indices are consecutive, starting from `idx`. -/
theorem chunkLoop_indices (content : List Char) (doc_id : String) (s o : ℕ) :
    ∀ fuel start idx,
      (chunkLoop content doc_id s o fuel start idx).map (·.index) =
        List.range' idx (chunkLoop content doc_id s o fuel start idx).length := by
  intro fuel
  induction fuel with
  | zero => intro start idx; rfl
  | succ n ih =>
      intro start idx
      by_cases hs : start < content.length
      · simp only [chunkLoop, hs, if_true, List.map_cons, List.length_cons,
          List.range'_succ]
        rw [ih]
      · simp [chunkLoop, hs]

/-- C7: for non-empty content, `chunk_size ≥ 1` and any `chunk_overlap`,
the chunk texts concatenated in index order equal the input exactly
(consecutive chunks share no characters), and the configured overlap has
no effect on the output: the cursor advance `max(end - overlap, end)`
always equals `end`. -/
theorem chunk_texts_tile_content (content : List Char) (doc_id : String)
    (chunk_size chunk_overlap : ℕ) (hc : content ≠ []) (hs : 1 ≤ chunk_size) :
    ((chunk_documentL content doc_id chunk_size chunk_overlap).map (·.content)).flatten =
      content
    ∧ chunk_documentL content doc_id chunk_size chunk_overlap =
        chunk_documentL content doc_id chunk_size 0 := by
  constructor
  · unfold chunk_documentL
    rw [if_neg hc]
    have h := chunkLoop_flatten content doc_id chunk_size chunk_overlap hs
      (content.length + 1) 0 0 (by omega)
    simpa using h
  · unfold chunk_documentL
    rw [if_neg hc, if_neg hc]
    exact chunkLoop_overlap_irrelevant content doc_id chunk_size chunk_overlap _ 0 0

/-- Witness for C7 at content `"abc"`, `chunk_size = 2`, `chunk_overlap = 5`. -/
theorem chunk_texts_tile_content_witness :
    ((chunk_documentL ['a', 'b', 'c'] "d" 2 5).map (·.content)).flatten = ['a', 'b', 'c']
    ∧ chunk_documentL ['a', 'b', 'c'] "d" 2 5 = chunk_documentL ['a', 'b', 'c'] "d" 2 0 :=
  chunk_texts_tile_content ['a', 'b', 'c'] "d" 2 5 (by decide) (by decide)

/-- C8: chunking is a pure function of `(doc_id, content, chunk_size,
chunk_overlap)` (so two calls agree bit for bit), the produced chunk
indices are `0, 1, 2, …`, and every chunk's identifier is the 128-bit
UUID read off the first 16 bytes of the SHA-256 digest of
`"{doc_id}:{chunk_index}:{first 100 characters of chunk text}"`. -/
theorem chunk_ids_deterministic (content : List Char) (doc_id : String) (s o : ℕ) :
    chunk_documentL content doc_id s o = chunk_documentL content doc_id s o
    ∧ (chunk_documentL content doc_id s o).map (·.index) =
        List.range (chunk_documentL content doc_id s o).length
    ∧ ∀ c ∈ chunk_documentL content doc_id s o,
        c.id = uuidOfBytes ((sha256Bytes (strUtf8
          (doc_id ++ ":" ++ toString c.index ++ ":" ++
            String.mk (c.content.take 100)))).take 16) := by
  refine ⟨rfl, ?_, ?_⟩
  · unfold chunk_documentL
    split
    · rfl
    · rw [chunkLoop_indices, List.range_eq_range']
  · intro c hc
    have hid : c.id = _generate_chunk_id c.content doc_id c.index := by
      unfold chunk_documentL at hc
      split at hc
      · cases hc
      · exact chunkLoop_id_formula content doc_id s o _ 0 0 c hc
    rw [hid]
    rfl

/-- Witness for C8: the single chunk of `"hi"` carries the advertised
SHA-256-derived identifier. -/
theorem chunk_ids_deterministic_witness :
    PyChunk.id ⟨['h', 'i'], 0, "0835ffca-c6cf-ef6a-584c-e2333e1d630e"⟩ =
      uuidOfBytes ((sha256Bytes (strUtf8
        ("d" ++ ":" ++ toString (0 : ℕ) ++ ":" ++
          String.mk (['h', 'i'].take 100)))).take 16) :=
  (chunk_ids_deterministic ['h', 'i'] "d" 5 0).2.2
    ⟨['h', 'i'], 0, "0835ffca-c6cf-ef6a-584c-e2333e1d630e"⟩ (by decide)

/-- C9: empty text chunks to the empty sequence; non-empty text shorter
than `chunk_size` yields exactly one chunk equal to the whole content;
text of length exactly `chunk_size` with overlap `0` yields exactly one
full-length chunk. (The non-emptiness of the text is implicit in the
latter two parts of the claim: an empty text falls under the first.) -/
theorem chunker_edge_cases (content : List Char) (doc_id : String) (s o : ℕ) :
    chunk_documentL [] doc_id s o = []
    ∧ (content ≠ [] → content.length < s →
        ∃ c, chunk_documentL content doc_id s o = [c] ∧ c.content = content)
    ∧ (content ≠ [] → content.length = s →
        ∃ c, chunk_documentL content doc_id s 0 = [c] ∧ c.content = content ∧
          c.content.length = s) := by
  refine ⟨by rw [chunk_documentL, if_pos rfl], ?_, ?_⟩
  · intro hc hlen
    have hpos : 0 < content.length := List.length_pos.mpr hc
    have hend : chunkEnd content s 0 = s := by
      unfold chunkEnd
      rw [if_neg (by omega)]
      omega
    refine ⟨⟨content, 0, _generate_chunk_id content doc_id 0⟩, ?_, rfl⟩
    unfold chunk_documentL
    rw [if_neg hc]
    simp only [chunkLoop, hpos, if_true, hend, cursor_advance_eq_end]
    rw [chunkLoop_stop _ _ _ _ _ _ _ (by omega)]
    simp [List.take_of_length_le (Nat.le_of_lt hlen)]
  · intro hc hlen
    have hpos : 0 < content.length := List.length_pos.mpr hc
    have hend : chunkEnd content s 0 = s := by
      unfold chunkEnd
      rw [if_neg (by omega)]
      omega
    refine ⟨⟨content, 0, _generate_chunk_id content doc_id 0⟩, ?_, rfl, by rw [hlen]⟩
    unfold chunk_documentL
    rw [if_neg hc]
    simp only [chunkLoop, hpos, if_true, hend, cursor_advance_eq_end]
    rw [chunkLoop_stop _ _ _ _ _ _ _ (by omega)]
    simp [List.take_of_length_le (Nat.le_of_eq hlen)]

/-- Witness for C9 at `"hi"` with `chunk_size = 5` resp. `= 2`. -/
theorem chunker_edge_cases_witness :
    chunk_documentL [] "d" 5 0 = []
    ∧ (∃ c, chunk_documentL ['h', 'i'] "d" 5 0 = [c] ∧ c.content = ['h', 'i'])
    ∧ (∃ c, chunk_documentL ['h', 'i'] "d" 2 0 = [c] ∧ c.content = ['h', 'i'] ∧
        c.content.length = 2) :=
  ⟨(chunker_edge_cases ['h', 'i'] "d" 5 0).1,
   (chunker_edge_cases ['h', 'i'] "d" 5 0).2.1 (by decide) (by decide),
   (chunker_edge_cases ['h', 'i'] "d" 2 0).2.2 (by decide) (by decide)⟩

/-! ### Ingestion job progress (`app/services/ingestion_job_service.py`)

Only the fields `update_job_progress` touches are modelled. Python ints
are `ℤ`; but `(job.processed_chunks / job.total_chunks) * 100` is
evaluated in IEEE-754 binary64 *float* arithmetic: the true division and
the product are each rounded to the nearest double (ties to even), and
`int(...)` truncates the resulting double toward zero. `roundToDouble`
embeds that rounding exactly over `ℚ` (53-bit significand, normal range —
amply covering these chunk counters; subnormals and overflow are outside
the modelled range). The guard `job.total_chunks and job.total_chunks >
0` is truthiness (`None` and `0` are falsy) followed by the sign test,
i.e. exactly `total = some t ∧ 0 < t`. -/

/-- The mutable progress-related state of an `IngestionJob` row. -/
structure IngestionJob where
  processed_chunks : ℤ
  total_chunks : Option ℤ
  progress : ℤ
deriving Repr, DecidableEq

/-- Python `int(q)`: truncation toward zero. -/
def pyTrunc (q : ℚ) : ℤ := if 0 ≤ q then ⌊q⌋ else -⌊-q⌋

/-- `⌊log₂ n⌋` by fueled halving (`n` fuel always suffices). -/
def natLog2F : ℕ → ℕ → ℕ
  | 0, _ => 0
  | f + 1, n => if 2 ≤ n then natLog2F f (n / 2) + 1 else 0

def natLog2 (n : ℕ) : ℕ := natLog2F n n

/-- `2^s : ℚ` for an integer exponent. -/
def qpow2 : ℤ → ℚ
  | .ofNat n => (2 : ℚ) ^ n
  | .negSucc n => 1 / (2 : ℚ) ^ (n + 1)

/-- `⌊log₂ q⌋` for positive `q` (junk on non-positives): the numerator
and denominator logs give it up to one, fixed by a single comparison. -/
def ilog2Q (q : ℚ) : ℤ :=
  let e0 : ℤ := (natLog2 q.num.natAbs : ℤ) - (natLog2 q.den : ℤ)
  if q < qpow2 e0 then e0 - 1 else e0

/-- Round a positive rational to the nearest IEEE-754 binary64 value
(53-bit significand, round half to even): scale by the unit in the last
place and round the scaled value to the nearest (even) integer. -/
def roundPosDouble (q : ℚ) : ℚ :=
  let ulp : ℚ := qpow2 (ilog2Q q - 52)
  let r : ℚ := q / ulp
  let fl : ℤ := ⌊r⌋
  let n : ℤ :=
    if r - fl < 1 / 2 then fl
    else if (1 : ℚ) / 2 < r - fl then fl + 1
    else if fl % 2 = 0 then fl else fl + 1
  (n : ℚ) * ulp

/-- IEEE-754 binary64 rounding of a rational, in the normal range.
(Validated against CPython float results on an exhaustive grid of small
`(processed, total)` pairs, including all the mismatching ones.) -/
def roundToDouble (q : ℚ) : ℚ :=
  if q = 0 then 0
  else if q < 0 then -roundPosDouble (-q)
  else roundPosDouble q

/-- Python float true division `a / b` of two ints: the exact quotient,
correctly rounded to binary64. -/
def pyFloatDiv (a b : ℤ) : ℚ := roundToDouble ((a : ℚ) / (b : ℚ))

/-- Python float multiplication: the exact product of the two doubles,
correctly rounded to binary64. -/
def pyFloatMul (x y : ℚ) : ℚ := roundToDouble (x * y)

/-- `IngestionJobService.update_job_progress` (lines 208–236): store the
new counters (`total_chunks` only when supplied) and recompute
`progress = min(100, int((processed / total) * 100))` — in binary64
float arithmetic — when the stored total is a positive number, else `0`. -/
def update_job_progress (job : IngestionJob) (processed_chunks : ℤ)
    (total_chunks : Option ℤ) : IngestionJob :=
  let total := match total_chunks with
    | some t => some t
    | none => job.total_chunks
  let progress : ℤ := match total with
    | some t =>
        if 0 < t then
          min 100 (pyTrunc (pyFloatMul (pyFloatDiv processed_chunks t) 100))
        else 0
    | none => 0
  { processed_chunks := processed_chunks, total_chunks := total, progress := progress }

theorem qpow2_pos (s : ℤ) : 0 < qpow2 s := by
  cases s with
  | ofNat n => exact pow_pos (by norm_num) n
  | negSucc n => exact div_pos one_pos (pow_pos (by norm_num) (n + 1))

theorem roundPosDouble_nonneg (q : ℚ) (hq : 0 < q) : 0 ≤ roundPosDouble q := by
  have hu : 0 < qpow2 (ilog2Q q - 52) := qpow2_pos _
  have hfl : 0 ≤ ⌊q / qpow2 (ilog2Q q - 52)⌋ :=
    Int.floor_nonneg.mpr (le_of_lt (div_pos hq hu))
  simp only [roundPosDouble]
  refine mul_nonneg ?_ (le_of_lt hu)
  have hn : (0 : ℤ) ≤
      (if q / qpow2 (ilog2Q q - 52) - ⌊q / qpow2 (ilog2Q q - 52)⌋ < 1 / 2 then
        ⌊q / qpow2 (ilog2Q q - 52)⌋
      else if (1 : ℚ) / 2 < q / qpow2 (ilog2Q q - 52) - ⌊q / qpow2 (ilog2Q q - 52)⌋ then
        ⌊q / qpow2 (ilog2Q q - 52)⌋ + 1
      else if ⌊q / qpow2 (ilog2Q q - 52)⌋ % 2 = 0 then ⌊q / qpow2 (ilog2Q q - 52)⌋
      else ⌊q / qpow2 (ilog2Q q - 52)⌋ + 1) := by
    split_ifs <;> omega
  exact_mod_cast hn

theorem roundToDouble_nonneg (q : ℚ) (hq : 0 ≤ q) : 0 ≤ roundToDouble q := by
  unfold roundToDouble
  rcases eq_or_lt_of_le hq with h | h
  · rw [if_pos h.symm]
  · rw [if_neg (ne_of_gt h), if_neg (not_lt.mpr hq)]
    exact roundPosDouble_nonneg q h

set_option maxRecDepth 40000 in
/-- C10 counterexample: at `(processed, total) = (29, 100)` the code
computes `(29/100)*100` in binary64 floats as `28.999999999999996…` and
stores progress `28`, while `⌊min(100, 29/100·100)⌋ = 29` — the claimed
exact-floor formula does not hold. -/
theorem job_progress_float_cex :
    (update_job_progress ⟨0, none, 0⟩ 29 (some 100)).progress = 28
    ∧ ⌊min (100 : ℚ) ((29 : ℚ) / (100 : ℚ) * 100)⌋ = 29
    ∧ (update_job_progress ⟨0, none, 0⟩ 29 (some 100)).progress ≠
        ⌊min (100 : ℚ) ((29 : ℚ) / (100 : ℚ) * 100)⌋ := by
  decide

/-- C10 (amended): for `processed ≥ 0` and `total > 0` the stored
progress is `min(100, trunc(fl64(fl64(processed/total) · 100)))`, where
`fl64` is IEEE-754 binary64 rounding — which can differ from
`⌊min(100, processed/total·100)⌋` — and it always lies in `[0, 100]`; a
zero or absent total yields progress `0`. -/
theorem job_progress_formula (job : IngestionJob) (p t : ℤ) (hp : 0 ≤ p) (ht : 0 < t) :
    (update_job_progress job p (some t)).progress =
      min 100 (pyTrunc (pyFloatMul (pyFloatDiv p t) 100))
    ∧ 0 ≤ (update_job_progress job p (some t)).progress
    ∧ (update_job_progress job p (some t)).progress ≤ 100
    ∧ (update_job_progress job p (some 0)).progress = 0
    ∧ (job.total_chunks = none → (update_job_progress job p none).progress = 0)
    ∧ (job.total_chunks = some 0 → (update_job_progress job p none).progress = 0) := by
  have htq : (0 : ℚ) < (t : ℚ) := by exact_mod_cast ht
  have hdiv : (0 : ℚ) ≤ pyFloatDiv p t :=
    roundToDouble_nonneg _ (by positivity)
  have hmul : (0 : ℚ) ≤ pyFloatMul (pyFloatDiv p t) 100 :=
    roundToDouble_nonneg _ (by positivity)
  have hprog : (update_job_progress job p (some t)).progress =
      min 100 (pyTrunc (pyFloatMul (pyFloatDiv p t) 100)) := by
    simp only [update_job_progress, if_pos ht]
  refine ⟨hprog, ?_, ?_, ?_, ?_, ?_⟩
  · rw [hprog, pyTrunc, if_pos hmul]
    exact le_min (by norm_num) (Int.floor_nonneg.mpr hmul)
  · rw [hprog]
    exact min_le_left _ _
  · simp [update_job_progress]
  · intro h
    simp [update_job_progress, h]
  · intro h
    simp [update_job_progress, h]

/-- Witness for the amended C10 at `(processed, total) = (29, 100)`. -/
theorem job_progress_formula_witness :
    (update_job_progress ⟨0, none, 0⟩ 29 (some 100)).progress =
      min 100 (pyTrunc (pyFloatMul (pyFloatDiv 29 100) 100))
    ∧ 0 ≤ (update_job_progress ⟨0, none, 0⟩ 29 (some 100)).progress
    ∧ (update_job_progress ⟨0, none, 0⟩ 29 (some 100)).progress ≤ 100 :=
  ⟨(job_progress_formula ⟨0, none, 0⟩ 29 100 (by decide) (by decide)).1,
   (job_progress_formula ⟨0, none, 0⟩ 29 100 (by decide) (by decide)).2.1,
   (job_progress_formula ⟨0, none, 0⟩ 29 100 (by decide) (by decide)).2.2.1⟩

/-! ### Hallucination guard (`app/utils/hallucination_guard.py`)

Python string operations on the ASCII inputs used here: `str.lower` is
`Char.toLower` per character, `str.split()` splits on whitespace runs
discarding empties, `str.strip()` is `String.trim`. A `set` of words is a
deduplicated list. The guard's `results` items are read only through
`result.get('score', 0)` (with `0` for non-dict items), so an item is
modelled by its effective score. -/

/-- Python `s.lower()` (per-character lowercasing). -/
def pyLower (s : String) : String := ⟨s.data.map Char.toLower⟩

/-- Python whitespace as used by `str.split()` / `str.strip()`. -/
def pyIsSpace (c : Char) : Bool :=
  c == ' ' || c == '\t' || c == '\n' || c == '\x0d' || c == '\x0b' || c == '\x0c'

/-- Python `s.strip()`: drop whitespace from both ends. -/
def pyStrip (s : String) : String :=
  ⟨((s.data.dropWhile pyIsSpace).reverse.dropWhile pyIsSpace).reverse⟩

/-- Accumulator loop behind `pySplitWs`: collect maximal non-whitespace
runs (`cur` holds the current word reversed). -/
def pySplitGo (cur : List Char) : List Char → List String
  | [] => if cur = [] then [] else [⟨cur.reverse⟩]
  | c :: cs =>
      if pyIsSpace c then
        if cur = [] then pySplitGo [] cs else ⟨cur.reverse⟩ :: pySplitGo [] cs
      else pySplitGo (c :: cur) cs

/-- Python `s.split()`: split on whitespace runs, no empty tokens. -/
def pySplitWs (s : String) : List String := pySplitGo [] s.data

/-- `HallucinationGuard.is_context_insufficient`: true when the context is
`None`/empty or its stripped length is below `min_length` (default 10). -/
def is_context_insufficient (context : Option String) (min_length : ℕ := 10) : Bool :=
  match context with
  | none => true
  | some s => if s = "" then true else decide ((pyStrip s).length < min_length)

/-- `HallucinationGuard.has_low_confidence_results`: empty results are low
confidence; otherwise low confidence iff no score reaches the threshold. -/
def has_low_confidence_results (results : List ℚ) (threshold : ℚ) : Bool :=
  if results = [] then true
  else results.all fun s => !(decide (threshold ≤ s))

/-- `HallucinationGuard.is_answer_properly_grounded`: lowercase word-set
overlap `|answer ∩ context| / |answer| ≥ 0.3`; empty answer or context is
never grounded. -/
def is_answer_properly_grounded (answer context : String) : Bool :=
  if answer = "" || context = "" then false
  else
    let answer_words := (pySplitWs (pyLower answer)).dedup
    let context_words := (pySplitWs (pyLower context)).dedup
    if answer_words = [] then false
    else decide ((3 : ℚ) / 10 ≤
      ((answer_words.filter fun w => context_words.contains w).length : ℚ) /
        (answer_words.length : ℚ))

/-- `HallucinationGuard.generate_refusal_response`: canned refusal text by
reason; any unrecognised reason gets the generic message. -/
def generate_refusal_response (reason : String) : String :=
  if reason = "insufficient_context" then
    "I don't have sufficient information in the book content to answer this question."
  else if reason = "low_confidence" then
    "The retrieved information doesn't have sufficient confidence to provide a reliable answer."
  else
    "I cannot provide an answer based on the available book content."

/-- `HallucinationGuard.should_refuse_to_answer`: context insufficiency
first, then — only when the results list is truthy (non-empty) — the
low-confidence check. -/
def should_refuse_to_answer (context : Option String) (results : List ℚ)
    (threshold : ℚ) : Bool × String :=
  if is_context_insufficient context then (true, "insufficient_context")
  else if results ≠ [] ∧ has_low_confidence_results results threshold then
    (true, "low_confidence")
  else (false, "")

/-! ### Citation service and RAG orchestrator
(`app/services/citation_service.py`, `app/services/rag_service.py`)

A retrieved chunk is modelled by its text and its optional metadata
mapping (the keys the orchestrator and the citation builder read). The
retrieval call in `process_query` (`self.retrieval_service.retrieve_chunks`,
a method that is in fact defined nowhere in the repository) is an
external input here: the embedded `process_query` takes the retrieved
chunk list as an argument and embeds the post-retrieval pipeline of
lines 69–133. -/

/-- The metadata keys read from a retrieved chunk's metadata mapping. -/
structure RagChunkMeta where
  similarity_score : Option ℚ
  source_path : Option String
  heading : Option String
  chunk_index : Option ℤ
deriving Repr, DecidableEq

/-- A retrieved chunk as consumed by the orchestrator and the citation
builder (`None` metadata is read through `or {}` / `.get` defaults). -/
structure RagChunk where
  chunk_text : String
  chunk_metadata : Option RagChunkMeta
deriving Repr, DecidableEq

/-- `(chunk.metadata or {}).get('similarity_score', 0)`. -/
def chunkSimScore (c : RagChunk) : ℚ :=
  match c.chunk_metadata with
  | some m => m.similarity_score.getD 0
  | none => 0

/-- `CitationService.format_citation`. -/
def format_citation (source_path heading : String) (chunk_index : ℤ) : String :=
  "[Source: " ++ source_path ++ ", Heading: " ++ heading ++ ", Chunk: " ++
    toString chunk_index ++ "]"

/-- `CitationService.build_context_with_citations`: blank-line-joined chunk
texts, and one citation per chunk with `'unknown'`/`-1` defaults. -/
def build_context_with_citations (chunks : List RagChunk) : String × List String :=
  (String.intercalate "\n\n" (chunks.map (·.chunk_text)),
   chunks.map fun c =>
     match c.chunk_metadata with
     | some m => format_citation (m.source_path.getD "unknown")
         (m.heading.getD "unknown") (m.chunk_index.getD (-1))
     | none => format_citation "unknown" "unknown" (-1))

/-- Python `s[:n]` (slicing by code point). -/
def pyTake (s : String) (n : ℕ) : String := ⟨s.data.take n⟩

/-- `RagService._generate_answer_from_context` (placeholder LLM). -/
def _generate_answer_from_context (question context : String) : String :=
  "Based on the provided context, here is an answer to your question '" ++
    pyTake question 50 ++ "...':\n\n" ++ pyTake context 500 ++ "..."

/-- `max(... for chunk in retrieved_chunks)` over the similarity scores. -/
def maxSimScore (chunks : List RagChunk) : ℚ :=
  match chunks.map chunkSimScore with
  | [] => 0
  | x :: xs => xs.foldl max x

/-- The dictionary returned by `RagService.process_query`. -/
structure RagResponse where
  answer : String
  citations : List String
  retrieved_chunks : List RagChunk
  confidence_score : ℚ
  was_refused : Bool
  refusal_reason : Option String
deriving Repr, DecidableEq

/-- `RagService.process_query` (lines 69–133), given the retrieved chunk
list: the no-chunks refusal, the max-similarity confidence check, context
assembly with citations, the second context-sufficiency check, answer
generation, and the grounding gate. -/
def process_query (question : String) (retrieved_chunks : List RagChunk)
    (similarity_threshold : ℚ) : RagResponse :=
  if retrieved_chunks = [] then
    { answer := generate_refusal_response "insufficient_context", citations := [],
      retrieved_chunks := [], confidence_score := 0, was_refused := true,
      refusal_reason := some "no_relevant_chunks_found" }
  else
    let max_similarity := maxSimScore retrieved_chunks
    if max_similarity < similarity_threshold then
      { answer := generate_refusal_response "low_confidence", citations := [],
        retrieved_chunks := retrieved_chunks, confidence_score := max_similarity,
        was_refused := true, refusal_reason := some "low_confidence_results" }
    else
      let cc := build_context_with_citations retrieved_chunks
      if is_context_insufficient (some cc.1) then
        { answer := generate_refusal_response "insufficient_context",
          citations := cc.2, retrieved_chunks := retrieved_chunks,
          confidence_score := max_similarity, was_refused := true,
          refusal_reason := some "insufficient_context_after_retrieval" }
      else
        let answer := _generate_answer_from_context question cc.1
        if is_answer_properly_grounded answer cc.1 then
          { answer := answer, citations := cc.2, retrieved_chunks := retrieved_chunks,
            confidence_score := max_similarity, was_refused := false,
            refusal_reason := none }
        else
          { answer := generate_refusal_response "not_properly_grounded",
            citations := cc.2, retrieved_chunks := retrieved_chunks,
            confidence_score := max_similarity * (1 / 2), was_refused := true,
            refusal_reason := some "answer_not_properly_grounded" }

/-- A retrieved chunk whose ten-character text shares no word with the
placeholder answer the orchestrator generates, so the grounding check
fails while the context-sufficiency check passes. -/
def ungroundedChunk : RagChunk :=
  { chunk_text := "aaaaaaaaaa",
    chunk_metadata := some
      { similarity_score := some 1, source_path := none, heading := none,
        chunk_index := none } }

/-- C1 counterexample: on this query the orchestrator lands in the
grounding-failure branch and returns the refusal together with the
citation list built from the retrieved chunks — the citations are not
discarded, contradicting the claimed empty citations list. -/
theorem ungrounded_answer_keeps_citations_cex :
    (process_query "q" [ungroundedChunk] (1 / 2)).refusal_reason =
      some "answer_not_properly_grounded"
    ∧ (process_query "q" [ungroundedChunk] (1 / 2)).was_refused = true
    ∧ (process_query "q" [ungroundedChunk] (1 / 2)).answer =
        "I cannot provide an answer based on the available book content."
    ∧ (process_query "q" [ungroundedChunk] (1 / 2)).citations =
        ["[Source: unknown, Heading: unknown, Chunk: -1]"]
    ∧ (process_query "q" [ungroundedChunk] (1 / 2)).citations ≠ [] := by
  decide

/-- C1 (amended): when retrieval returned chunks, the confidence and
context checks pass, and the generated answer fails the grounding check,
`process_query` returns the `not_properly_grounded` refusal message with
`refusal_reason` `"answer_not_properly_grounded"` — and the citations
built from the retrieved chunks are returned unchanged, not discarded. -/
theorem ungrounded_answer_keeps_citations (question : String) (chunks : List RagChunk)
    (t : ℚ) (hne : chunks ≠ []) (hconf : ¬(maxSimScore chunks < t))
    (hctx : is_context_insufficient (some (build_context_with_citations chunks).1) = false)
    (hgr : is_answer_properly_grounded
      (_generate_answer_from_context question (build_context_with_citations chunks).1)
      (build_context_with_citations chunks).1 = false) :
    process_query question chunks t =
      { answer := generate_refusal_response "not_properly_grounded",
        citations := (build_context_with_citations chunks).2,
        retrieved_chunks := chunks,
        confidence_score := maxSimScore chunks * (1 / 2),
        was_refused := true,
        refusal_reason := some "answer_not_properly_grounded" } := by
  unfold process_query
  rw [if_neg hne, if_neg hconf, if_neg (by simp [hctx]), if_neg (by simp [hgr])]

/-- Witness for the amended C1 at the concrete ungrounded query. -/
theorem ungrounded_answer_keeps_citations_witness :
    process_query "q" [ungroundedChunk] (1 / 2) =
      { answer := generate_refusal_response "not_properly_grounded",
        citations := (build_context_with_citations [ungroundedChunk]).2,
        retrieved_chunks := [ungroundedChunk],
        confidence_score := maxSimScore [ungroundedChunk] * (1 / 2),
        was_refused := true,
        refusal_reason := some "answer_not_properly_grounded" } :=
  ungrounded_answer_keeps_citations "q" [ungroundedChunk] (1 / 2)
    (by decide) (by decide) (by decide) (by decide)

/-- C2 counterexample: a refusing run of `process_query` whose
`refusal_reason` (`"answer_not_properly_grounded"`) matches none of the
four taxonomy strings character for character. -/
theorem refusal_reason_taxonomy_cex :
    (process_query "q2" [ungroundedChunk] (1 / 2)).was_refused = true
    ∧ (process_query "q2" [ungroundedChunk] (1 / 2)).refusal_reason =
        some "answer_not_properly_grounded"
    ∧ (process_query "q2" [ungroundedChunk] (1 / 2)).refusal_reason ≠
        some "insufficient_context"
    ∧ (process_query "q2" [ungroundedChunk] (1 / 2)).refusal_reason ≠
        some "low_confidence"
    ∧ (process_query "q2" [ungroundedChunk] (1 / 2)).refusal_reason ≠
        some "not_properly_grounded"
    ∧ (process_query "q2" [ungroundedChunk] (1 / 2)).refusal_reason ≠
        some "no_relevant_chunks_found" := by
  decide

/-- C2 (amended): whenever `process_query` refuses, its `refusal_reason`
is one of the four strings `no_relevant_chunks_found`,
`low_confidence_results`, `insufficient_context_after_retrieval`,
`answer_not_properly_grounded` (only the first of which belongs to the
spec's taxonomy). -/
theorem refusal_reason_strings (question : String) (chunks : List RagChunk) (t : ℚ) :
    ((process_query question chunks t).was_refused = false
      ∧ (process_query question chunks t).refusal_reason = none)
    ∨ (process_query question chunks t).refusal_reason = some "no_relevant_chunks_found"
    ∨ (process_query question chunks t).refusal_reason = some "low_confidence_results"
    ∨ (process_query question chunks t).refusal_reason =
        some "insufficient_context_after_retrieval"
    ∨ (process_query question chunks t).refusal_reason =
        some "answer_not_properly_grounded" := by
  unfold process_query
  by_cases h1 : chunks = []
  · rw [if_pos h1]
    simp
  · rw [if_neg h1]
    by_cases h2 : maxSimScore chunks < t
    · rw [if_pos h2]
      simp
    · rw [if_neg h2]
      by_cases h3 : is_context_insufficient (some (build_context_with_citations chunks).1) = true
      · rw [if_pos h3]
        simp
      · rw [if_neg h3]
        by_cases h4 : is_answer_properly_grounded
            (_generate_answer_from_context question (build_context_with_citations chunks).1)
            (build_context_with_citations chunks).1 = true
        · rw [if_pos h4]
          simp
        · rw [if_neg h4]
          simp

/-- C6 counterexample: with sufficient context and an *empty* results
list, `should_refuse_to_answer` does not refuse at all (the low-confidence
check is guarded by the truthiness of `results`), contradicting the
claimed `low_confidence` refusal. -/
theorem refusal_decision_order_cex :
    should_refuse_to_answer (some "plenty of context here") [] (1 / 2) = (false, "")
    ∧ should_refuse_to_answer (some "plenty of context here") [] (1 / 2) ≠
        (true, "low_confidence")
    ∧ has_low_confidence_results [] (1 / 2) = true := by
  decide

/-- C6 (amended): `has_low_confidence_results` is true iff no score meets
the threshold (empty input trivially so); `should_refuse_to_answer`
checks context insufficiency first, then — only for a non-empty results
list — low confidence; with sufficient context and empty results it does
*not* refuse and returns `(false, "")`. -/
theorem refusal_decision_order (context : Option String) (results : List ℚ) (t : ℚ) :
    (has_low_confidence_results results t = true ↔ ∀ s ∈ results, s < t)
    ∧ has_low_confidence_results [] t = true
    ∧ (is_context_insufficient context = true →
        should_refuse_to_answer context results t = (true, "insufficient_context"))
    ∧ (is_context_insufficient context = false → results ≠ [] →
        has_low_confidence_results results t = true →
        should_refuse_to_answer context results t = (true, "low_confidence"))
    ∧ (is_context_insufficient context = false → results = [] →
        should_refuse_to_answer context results t = (false, "")) := by
  refine ⟨?_, rfl, ?_, ?_, ?_⟩
  · unfold has_low_confidence_results
    by_cases hr : results = []
    · simp [hr]
    · simp [hr, List.all_eq_true, not_le]
  · intro h
    simp [should_refuse_to_answer, h]
  · intro h1 h2 h3
    simp [should_refuse_to_answer, h1, h2, h3]
  · intro h1 h2
    simp [should_refuse_to_answer, h1, h2]

/-- Witness for the amended C6: sufficient context with one
below-threshold result yields the `low_confidence` refusal, and the
low-confidence predicate agrees with the pointwise description. -/
theorem refusal_decision_order_witness :
    should_refuse_to_answer (some "plenty of context here") [1 / 4] (1 / 2) =
      (true, "low_confidence")
    ∧ (has_low_confidence_results [1 / 4] (1 / 2) = true ↔
        ∀ s ∈ [(1 : ℚ) / 4], s < 1 / 2) :=
  ⟨(refusal_decision_order (some "plenty of context here") [1 / 4] (1 / 2)).2.2.2.1
      (by decide) (by decide) (by decide),
   (refusal_decision_order (some "plenty of context here") [1 / 4] (1 / 2)).1⟩

/-! ### Retrieval engine (`app/services/retrieval_service.py`)

Vectors are lists of exact rationals. A search result's float `score` is
represented exactly by the pair `(sNum, sDenSq)` whose mathematical value
is `sNum / √sDenSq`: a Qdrant result with score `s` is `(s, 1)`, and the
local cosine fallback stores `(dot(q,v), ‖q‖²·‖v‖²)` so that the value is
exactly `dot/(‖q‖·‖v‖)`. All score comparisons performed by the code are
embedded by the decidable rational tests `geKey`; the lemma `geKey_iff`
proves them equivalent to the real-number comparisons (Lean's conventions
`√x = 0` for `x ≤ 0` and `a / 0 = 0` coincide with the code's policy of
giving zero-norm vectors no score). The Qdrant client itself is external:
its outcome — an exception or a result list — is a parameter. -/

/-- The payload carried by a search result. -/
structure SearchPayload where
  document_id : String
  source_path : String
  title : String
  chunk_index : ℤ
  content : String
deriving Repr, DecidableEq

/-- A formatted search result (`{'id': …, 'score': …, 'payload': …}`);
the score's value is `sNum / √sDenSq`. -/
structure SearchHit where
  id : String
  sNum : ℚ
  sDenSq : ℚ
  payload : SearchPayload
deriving Repr, DecidableEq

/-- A raw result from `qdrant_service.search_similar`. -/
structure QdrantHit where
  chunk_id : String
  score : ℚ
  payload : SearchPayload
deriving Repr, DecidableEq

/-- A row of the `chunks` table as used by retrieval: its stored vector
is optional (`chunk.vector` truthiness also rejects an empty list). -/
structure ChunkRec where
  id : String
  document_id : String
  chunk_index : ℤ
  chunk_text : String
  chunk_hash : String
  vector : Option (List ℚ)
deriving Repr, DecidableEq

/-- `np.dot` of two equal-length vectors. -/
def dotQ (xs ys : List ℚ) : ℚ := (List.zipWith (· * ·) xs ys).sum

/-- Squared Euclidean norm (`np.linalg.norm(x)²`). -/
def normSq (xs : List ℚ) : ℚ := dotQ xs xs

/-- Decidable comparison `n₁/√d₁ ≥ n₂/√d₂` of two represented scores
(with the zero conventions for non-positive `d`). -/
def geKey (n₁ d₁ n₂ d₂ : ℚ) : Bool :=
  if d₁ ≤ 0 then
    if d₂ ≤ 0 then true else decide (n₂ ≤ 0)
  else if d₂ ≤ 0 then decide (0 ≤ n₁)
  else if 0 ≤ n₁ then decide (n₂ < 0) || decide (n₂ * n₂ * d₁ ≤ n₁ * n₁ * d₂)
  else decide (n₂ < 0) && decide (n₁ * n₁ * d₂ ≤ n₂ * n₂ * d₁)

/-- The real value of a represented score. -/
noncomputable def scoreVal (n d : ℚ) : ℝ := (n : ℝ) / Real.sqrt (d : ℝ)

/-- `geKey` decides exactly the real comparison of the two score values. -/
theorem geKey_iff (n₁ d₁ n₂ d₂ : ℚ) :
    geKey n₁ d₁ n₂ d₂ = true ↔ scoreVal n₂ d₂ ≤ scoreVal n₁ d₁ := by
  unfold geKey scoreVal
  by_cases hd₁ : d₁ ≤ 0
  · have h₁ : Real.sqrt (d₁ : ℝ) = 0 := Real.sqrt_eq_zero'.mpr (by exact_mod_cast hd₁)
    by_cases hd₂ : d₂ ≤ 0
    · have h₂ : Real.sqrt (d₂ : ℝ) = 0 := Real.sqrt_eq_zero'.mpr (by exact_mod_cast hd₂)
      simp [hd₁, hd₂, h₁, h₂]
    · have hd₂' : (0 : ℝ) < Real.sqrt (d₂ : ℝ) :=
        Real.sqrt_pos.mpr (by exact_mod_cast lt_of_not_le hd₂)
      simp only [hd₁, if_true, hd₂, if_false, h₁, div_zero, decide_eq_true_eq]
      rw [div_le_iff hd₂', zero_mul]
      exact ⟨fun h => by exact_mod_cast h, fun h => by exact_mod_cast h⟩
  · have hd₁' : (0 : ℝ) < Real.sqrt (d₁ : ℝ) :=
      Real.sqrt_pos.mpr (by exact_mod_cast lt_of_not_le hd₁)
    by_cases hd₂ : d₂ ≤ 0
    · have h₂ : Real.sqrt (d₂ : ℝ) = 0 := Real.sqrt_eq_zero'.mpr (by exact_mod_cast hd₂)
      simp only [hd₁, if_false, hd₂, if_true, h₂, div_zero, decide_eq_true_eq]
      rw [le_div_iff hd₁', zero_mul]
      exact ⟨fun h => by exact_mod_cast h, fun h => by exact_mod_cast h⟩
    · have hd₂' : (0 : ℝ) < Real.sqrt (d₂ : ℝ) :=
        Real.sqrt_pos.mpr (by exact_mod_cast lt_of_not_le hd₂)
      rw [if_neg hd₁, if_neg hd₂, div_le_div_iff hd₂' hd₁']
      by_cases hn₁ : 0 ≤ n₁
      · have hn₁' : (0 : ℝ) ≤ (n₁ : ℝ) := by exact_mod_cast hn₁
        rw [if_pos hn₁]
        by_cases hn₂ : n₂ < 0
        · have hn₂' : (n₂ : ℝ) < 0 := by exact_mod_cast hn₂
          have : (n₂ : ℝ) * Real.sqrt (d₁ : ℝ) ≤ (n₁ : ℝ) * Real.sqrt (d₂ : ℝ) :=
            le_trans (le_of_lt (mul_neg_of_neg_of_pos hn₂' hd₁'))
              (mul_nonneg hn₁' (le_of_lt hd₂'))
          simp [hn₂, this]
        · have hn₂' : (0 : ℝ) ≤ (n₂ : ℝ) := by
            exact_mod_cast le_of_not_lt hn₂
          have key : (n₂ : ℝ) * Real.sqrt (d₁ : ℝ) ≤ (n₁ : ℝ) * Real.sqrt (d₂ : ℝ) ↔
              (n₂ : ℝ) * n₂ * d₁ ≤ (n₁ : ℝ) * n₁ * d₂ := by
            rw [show (n₂ : ℝ) * Real.sqrt (d₁ : ℝ) =
                  Real.sqrt ((n₂ : ℝ) * n₂ * d₁) by
                rw [Real.sqrt_mul (mul_self_nonneg _), Real.sqrt_mul_self hn₂'],
              show (n₁ : ℝ) * Real.sqrt (d₂ : ℝ) =
                  Real.sqrt ((n₁ : ℝ) * n₁ * d₂) by
                rw [Real.sqrt_mul (mul_self_nonneg _), Real.sqrt_mul_self hn₁']]
            exact Real.sqrt_le_sqrt_iff
              (mul_nonneg (mul_self_nonneg _)
                (le_of_lt (by exact_mod_cast lt_of_not_le hd₂)))
          rw [key]
          simp only [Bool.or_eq_true, decide_eq_true_eq]
          constructor
          · intro h
            exact_mod_cast h.resolve_left hn₂
          · intro h
            exact Or.inr (by exact_mod_cast h)
      · have hn₁' : (n₁ : ℝ) < 0 := by exact_mod_cast lt_of_not_le hn₁
        rw [if_neg hn₁]
        by_cases hn₂ : n₂ < 0
        · have hn₂' : (n₂ : ℝ) < 0 := by exact_mod_cast hn₂
          have key : (n₂ : ℝ) * Real.sqrt (d₁ : ℝ) ≤ (n₁ : ℝ) * Real.sqrt (d₂ : ℝ) ↔
              (n₁ : ℝ) * n₁ * d₂ ≤ (n₂ : ℝ) * n₂ * d₁ := by
            rw [show (n₂ : ℝ) * Real.sqrt (d₁ : ℝ) =
                  -Real.sqrt ((n₂ : ℝ) * n₂ * d₁) by
                rw [Real.sqrt_mul (mul_self_nonneg _),
                  show (n₂ : ℝ) * n₂ = (-(n₂ : ℝ)) * (-(n₂ : ℝ)) by ring,
                  Real.sqrt_mul_self (by linarith)]
                ring,
              show (n₁ : ℝ) * Real.sqrt (d₂ : ℝ) =
                  -Real.sqrt ((n₁ : ℝ) * n₁ * d₂) by
                rw [Real.sqrt_mul (mul_self_nonneg _),
                  show (n₁ : ℝ) * n₁ = (-(n₁ : ℝ)) * (-(n₁ : ℝ)) by ring,
                  Real.sqrt_mul_self (by linarith)]
                ring,
              neg_le_neg_iff]
            exact Real.sqrt_le_sqrt_iff
              (mul_nonneg (mul_self_nonneg _)
                (le_of_lt (by exact_mod_cast lt_of_not_le hd₁)))
          rw [key]
          simp only [Bool.and_eq_true, decide_eq_true_eq]
          constructor
          · intro h
            exact_mod_cast h.2
          · intro h
            exact ⟨hn₂, by exact_mod_cast h⟩
        · have hn₂' : (0 : ℝ) ≤ (n₂ : ℝ) := by exact_mod_cast le_of_not_lt hn₂
          have : ¬((n₂ : ℝ) * Real.sqrt (d₁ : ℝ) ≤ (n₁ : ℝ) * Real.sqrt (d₂ : ℝ)) := by
            push_neg
            exact lt_of_lt_of_le (mul_neg_of_neg_of_pos hn₁' hd₂')
              (mul_nonneg hn₂' (le_of_lt hd₁'))
          simp [hn₂, this]

/-- `scoreVal t 1` is just `t`: a Qdrant score is represented exactly. -/
theorem scoreVal_one (t : ℚ) : scoreVal t 1 = (t : ℝ) := by
  unfold scoreVal
  simp [Real.sqrt_one]

/-- Formatting of one Qdrant result (lines 64–70). -/
def toSearchHit (r : QdrantHit) : SearchHit :=
  { id := r.chunk_id, sNum := r.score, sDenSq := 1, payload := r.payload }

namespace RetrievalService

/-- The loop body of `_perform_database_similarity_search` (lines 105–135)
for one chunk: skipped unless the chunk carries a (truthy, i.e. non-empty)
stored vector and both norms are non-zero; otherwise scored with cosine
similarity `dot/(‖q‖·‖v‖)`, which `SearchHit` represents exactly as
`(dot q v, ‖q‖²·‖v‖²)`. (Vectors are stored parsed; a chunk whose stored
JSON would not parse is likewise skipped.) -/
def scoreChunk (query : List ℚ) (c : ChunkRec) : Option SearchHit :=
  match c.vector with
  | none => none
  | some v =>
      if v = [] then none
      else if normSq query ≠ 0 ∧ normSq v ≠ 0 then
        some { id := c.id, sNum := dotQ query v, sDenSq := normSq query * normSq v,
               payload := { document_id := c.document_id, source_path := "",
                            title := "", chunk_index := c.chunk_index,
                            content := c.chunk_text } }
      else none

/-- Descending score order between two hits, as decided by the code's
`x['score'] >= y['score']` on the represented values. -/
def hitGe (a b : SearchHit) : Prop := geKey a.sNum a.sDenSq b.sNum b.sDenSq = true

instance : DecidableRel hitGe := fun _ _ => inferInstanceAs (Decidable (_ = true))

instance : IsTotal SearchHit hitGe :=
  ⟨fun a b => by
    rcases le_total (scoreVal a.sNum a.sDenSq) (scoreVal b.sNum b.sDenSq) with h | h
    · exact Or.inr ((geKey_iff _ _ _ _).mpr h)
    · exact Or.inl ((geKey_iff _ _ _ _).mpr h)⟩

instance : IsTrans SearchHit hitGe :=
  ⟨fun a b c hab hbc => (geKey_iff _ _ _ _).mpr
    (le_trans ((geKey_iff _ _ _ _).mp hbc) ((geKey_iff _ _ _ _).mp hab))⟩

/-- `ChunkRepository.get_all` / `ChunkService.get_all_chunks`:
`db.query(Chunk).offset(skip).limit(limit).all()`, a *page* of the chunk
table (rows in table order) — the defaults are `skip = 0, limit = 100`. -/
def get_all (store : List ChunkRec) (skip limit : ℕ) : List ChunkRec :=
  (store.drop skip).take limit

/-- `RetrievalService._perform_database_similarity_search`: fetch the
chunks via `self.chunk_repository.get_all()` — which, called with its
pagination defaults, returns at most the *first 100* rows — score each
one that has a stored vector, sort descending by score (Python's stable
sort), return the `top_k` best. -/
def _perform_database_similarity_search (query : List ℚ) (chunks : List ChunkRec)
    (top_k : ℕ) : List SearchHit :=
  (List.insertionSort hitGe ((get_all chunks 0 100).filterMap (scoreChunk query))).take
    top_k

/-- `RetrievalService.perform_vector_search`: try Qdrant (whose outcome —
exception or result list — is the `qres` parameter); return its formatted
results when non-empty; otherwise (exception *or* empty results) fall
back to the local similarity scan. -/
def perform_vector_search (qres : Except Unit (List QdrantHit))
    (chunks : List ChunkRec) (query : List ℚ) (top_k : ℕ) : List SearchHit :=
  match qres with
  | .error _ => _perform_database_similarity_search query chunks top_k
  | .ok rs =>
      let formatted := rs.map toSearchHit
      if formatted ≠ [] then formatted
      else _perform_database_similarity_search query chunks top_k

/-- `RetrievalService.has_low_confidence_results`: empty results are low
confidence; otherwise low confidence iff no result's score reaches the
threshold. -/
def has_low_confidence_results (results : List SearchHit) (threshold : ℚ) : Bool :=
  if results = [] then true
  else results.all fun r => !(geKey r.sNum r.sDenSq threshold 1)

/-- `RetrievalService.fetch_chunks_by_ids`: resolve each id in the
relational store, keeping the ones that exist. -/
def fetch_chunks_by_ids (store : List ChunkRec) (ids : List String) : List ChunkRec :=
  ids.filterMap fun i => store.find? fun c => c.id == i

/-- `RetrievalService.retrieve_and_rank_chunks`: search (Qdrant or
fallback), apply the confidence gate, and resolve *all* candidate ids. -/
def retrieve_and_rank_chunks (qres : Except Unit (List QdrantHit))
    (store : List ChunkRec) (query : List ℚ) (top_k : ℕ) (threshold : ℚ) :
    List ChunkRec :=
  let search_results := perform_vector_search qres store query top_k
  if has_low_confidence_results search_results threshold then []
  else fetch_chunks_by_ids store (search_results.map (·.id))

end RetrievalService

/-- An empty search payload used by concrete retrieval examples. -/
def emptyPayload : SearchPayload :=
  { document_id := "", source_path := "", title := "", chunk_index := 0, content := "" }

/-- A Qdrant candidate above the example threshold. -/
def gateHitHigh : QdrantHit := { chunk_id := "A", score := 9 / 10, payload := emptyPayload }

/-- A Qdrant candidate below the example threshold. -/
def gateHitLow : QdrantHit := { chunk_id := "B", score := 1 / 10, payload := emptyPayload }

/-- The stored chunk behind candidate `"A"`. -/
def gateChunkA : ChunkRec :=
  { id := "A", document_id := "d", chunk_index := 0, chunk_text := "ta",
    chunk_hash := "ha", vector := none }

/-- The stored chunk behind candidate `"B"`. -/
def gateChunkB : ChunkRec :=
  { id := "B", document_id := "d", chunk_index := 1, chunk_text := "tb",
    chunk_hash := "hb", vector := none }

/-- C3 counterexample: with candidates scored `9/10` and `1/10` against
threshold `1/2`, retrieval passes the gate and returns *both* resolved
chunks — including the one whose candidate score `1/10` is below the
threshold, contradicting "every returned chunk's score satisfies the
threshold". -/
theorem confidence_gate_cex :
    RetrievalService.retrieve_and_rank_chunks (Except.ok [gateHitHigh, gateHitLow])
      [gateChunkA, gateChunkB] [1] 5 (1 / 2) = [gateChunkA, gateChunkB]
    ∧ gateHitLow.score < 1 / 2
    ∧ gateChunkB ∈ RetrievalService.retrieve_and_rank_chunks
        (Except.ok [gateHitHigh, gateHitLow]) [gateChunkA, gateChunkB] [1] 5 (1 / 2) := by
  decide

/-- C3 (amended): the confidence gate is all-or-nothing. Retrieval returns
`[]` exactly when the candidate list is low confidence — empty, or with
every candidate's score strictly below the threshold (the gate's boolean
is proven equivalent to that real-score condition); otherwise it resolves
*all* candidate ids against the store without per-candidate filtering (so
below-threshold candidates are returned too), and the result is non-empty
provided every candidate id resolves to a stored chunk. -/
theorem confidence_gate (qres : Except Unit (List QdrantHit)) (store : List ChunkRec)
    (q : List ℚ) (k : ℕ) (t : ℚ) :
    (RetrievalService.has_low_confidence_results
        (RetrievalService.perform_vector_search qres store q k) t = true ↔
      ∀ h ∈ RetrievalService.perform_vector_search qres store q k,
        ¬((t : ℝ) ≤ scoreVal h.sNum h.sDenSq))
    ∧ (RetrievalService.has_low_confidence_results
        (RetrievalService.perform_vector_search qres store q k) t = true →
      RetrievalService.retrieve_and_rank_chunks qres store q k t = [])
    ∧ (RetrievalService.has_low_confidence_results
        (RetrievalService.perform_vector_search qres store q k) t = false →
      RetrievalService.retrieve_and_rank_chunks qres store q k t =
        RetrievalService.fetch_chunks_by_ids store
          ((RetrievalService.perform_vector_search qres store q k).map (·.id)))
    ∧ (RetrievalService.has_low_confidence_results
        (RetrievalService.perform_vector_search qres store q k) t = false →
      (∀ h ∈ RetrievalService.perform_vector_search qres store q k,
        (store.find? fun c => c.id == h.id).isSome) →
      RetrievalService.retrieve_and_rank_chunks qres store q k t ≠ []) := by
  set rs := RetrievalService.perform_vector_search qres store q k with hrs
  have hgate : RetrievalService.has_low_confidence_results rs t = true ↔
      ∀ h ∈ rs, ¬((t : ℝ) ≤ scoreVal h.sNum h.sDenSq) := by
    unfold RetrievalService.has_low_confidence_results
    by_cases he : rs = []
    · simp [he]
    · rw [if_neg he, List.all_eq_true]
      refine forall_congr' fun h => forall_congr' fun _ => ?_
      rw [Bool.not_eq_true', ← Bool.not_eq_true, geKey_iff, scoreVal_one]
  refine ⟨hgate, ?_, ?_, ?_⟩
  · intro h
    unfold RetrievalService.retrieve_and_rank_chunks
    rw [← hrs, if_pos h]
  · intro h
    unfold RetrievalService.retrieve_and_rank_chunks
    rw [← hrs, if_neg (by simp [h])]
  · intro h hresolve
    unfold RetrievalService.retrieve_and_rank_chunks
    rw [← hrs, if_neg (by simp [h])]
    have hne : rs ≠ [] := by
      intro he
      rw [RetrievalService.has_low_confidence_results, if_pos he] at h
      exact absurd h (by simp)
    rcases rs with _ | ⟨h0, rest⟩
    · exact absurd rfl hne
    · rcases Option.isSome_iff_exists.mp (hresolve h0 (List.mem_cons_self h0 rest)) with ⟨c, hc⟩
      simp only [List.map_cons, RetrievalService.fetch_chunks_by_ids,
        List.filterMap_cons, hc]
      exact List.cons_ne_nil _ _

/-- Witness for the amended C3: a high- and a low-scoring candidate pass
the gate together and both resolve. -/
theorem confidence_gate_witness :
    RetrievalService.retrieve_and_rank_chunks (Except.ok [gateHitHigh, gateHitLow])
      [gateChunkA, gateChunkB] [1] 5 (1 / 2) =
      RetrievalService.fetch_chunks_by_ids [gateChunkA, gateChunkB]
        ((RetrievalService.perform_vector_search (Except.ok [gateHitHigh, gateHitLow])
          [gateChunkA, gateChunkB] [1] 5).map (·.id))
    ∧ RetrievalService.retrieve_and_rank_chunks (Except.ok [gateHitHigh, gateHitLow])
        [gateChunkA, gateChunkB] [1] 5 (1 / 2) ≠ [] :=
  ⟨(confidence_gate (Except.ok [gateHitHigh, gateHitLow]) [gateChunkA, gateChunkB]
      [1] 5 (1 / 2)).2.2.1 (by decide),
   (confidence_gate (Except.ok [gateHitHigh, gateHitLow]) [gateChunkA, gateChunkB]
      [1] 5 (1 / 2)).2.2.2 (by decide) (by decide)⟩

/-- A `documents` table row. -/
structure DocumentRec where
  id : String
  source_path : String
  title : String
  checksum : String
  content : String
deriving Repr, DecidableEq

/-- The relational state the ingestion pipeline reads and writes. -/
structure IngState where
  documents : List DocumentRec
  chunks : List ChunkRec
  fresh : ℕ
deriving Repr, DecidableEq

/-- A scanned file: its path, its path relative to the source directory,
and its raw content. -/
structure IngFile where
  path : String
  rel : String
  content : String
deriving Repr, DecidableEq

/-- The text-extraction collaborator: cleaned body text of the raw
content, and the resolved title (frontmatter title, else first heading,
else filename-derived). -/
structure Extractor where
  clean : String → String
  title : String → String → String

/-- The aggregate result dictionary of an ingestion run. -/
structure IngResult where
  processed_documents : ℕ
  created_chunks : ℕ
  skipped_documents : ℕ
  errors : List String
deriving Repr, DecidableEq

namespace IngestionService

/-- `DocumentRepository.find_by_checksum`: first document row with the
given checksum. -/
def find_by_checksum (st : IngState) (checksum : String) : Option DocumentRec :=
  st.documents.find? fun d => d.checksum == checksum

/-- `IngestionService.process_document` (lines 66–143): read, checksum,
short-circuit on an existing checksum; otherwise extract, create the
document (`IntegrityError` on a duplicate source path), chunk with the
configured defaults, embed and persist each chunk (upserting to the
vector index is failure-tolerated and adds no state). -/
def process_document (ext : Extractor) (embed : String → List ℚ)
    (docId rowId : ℕ → String) (st : IngState) (f : IngFile) :
    Except String (DocumentRec × List ChunkRec × IngState) :=
  let checksum := calculate_sha256 f.content
  match find_by_checksum st checksum with
  | some existing => .ok (existing, [], st)
  | none =>
      let clean := ext.clean f.content
      let title := ext.title f.path f.content
      if st.documents.any fun d => d.source_path == f.rel then
        .error "IntegrityError"
      else
        let did := docId st.fresh
        let doc : DocumentRec :=
          { id := did, source_path := f.rel, title := title, checksum := checksum,
            content := clean }
        let pchunks := chunk_document_fn clean.data did none none
        let rows : List ChunkRec := pchunks.map fun c =>
          { id := rowId (st.fresh + 1 + c.index), document_id := did,
            chunk_index := (c.index : ℤ), chunk_text := String.mk c.content,
            chunk_hash := c.id, vector := some (embed (String.mk c.content)) }
        .ok (doc, rows,
          { documents := st.documents ++ [doc], chunks := st.chunks ++ rows,
            fresh := st.fresh + 1 + pchunks.length })

/-- `IngestionService.run_ingestion_pipeline` (lines 162–222): process
every scanned file, counting each non-raising `process_document` call —
including checksum short-circuits — under `processed_documents`;
exceptions are caught and recorded per file. -/
def run_ingestion_pipeline (ext : Extractor) (embed : String → List ℚ)
    (docId rowId : ℕ → String) (files : List IngFile) (st : IngState) :
    IngResult × IngState :=
  files.foldl
    (fun acc f =>
      match process_document ext embed docId rowId acc.2 f with
      | .ok (_, chunks, st') =>
          ({ acc.1 with
              processed_documents := acc.1.processed_documents + 1,
              created_chunks := acc.1.created_chunks + chunks.length }, st')
      | .error e =>
          ({ acc.1 with
              errors := acc.1.errors ++
                ["Error processing " ++ f.path ++ ": " ++ e] },
           acc.2))
    (⟨{ processed_documents := 0, created_chunks := 0, skipped_documents := 0,
        errors := [] }, st⟩)

/-- `IngestionService.run_incremental_ingestion` (lines 224–298): check
the checksum before any extraction work and count unchanged files under
`skipped_documents`. -/
def run_incremental_ingestion (ext : Extractor) (embed : String → List ℚ)
    (docId rowId : ℕ → String) (files : List IngFile) (st : IngState) :
    IngResult × IngState :=
  files.foldl
    (fun acc f =>
      match find_by_checksum acc.2 (calculate_sha256 f.content) with
      | some _ =>
          ({ acc.1 with skipped_documents := acc.1.skipped_documents + 1 }, acc.2)
      | none =>
          match process_document ext embed docId rowId acc.2 f with
          | .ok (_, chunks, st') =>
              ({ acc.1 with
                  processed_documents := acc.1.processed_documents + 1,
                  created_chunks := acc.1.created_chunks + chunks.length }, st')
          | .error e =>
              ({ acc.1 with
                  errors := acc.1.errors ++
                    ["Error processing " ++ f.path ++ ": " ++ e] },
               acc.2))
    (⟨{ processed_documents := 0, created_chunks := 0, skipped_documents := 0,
        errors := [] }, st⟩)

end IngestionService

/-- If a prefix of a list has no match, searching the appended list
searches the suffix. -/
theorem find?_append_of_none {α : Type} (p : α → Bool) (l₁ l₂ : List α)
    (h : l₁.find? p = none) : (l₁ ++ l₂).find? p = l₂.find? p := by
  induction l₁ with
  | nil => rfl
  | cons x xs ih =>
      rw [List.find?_cons] at h
      rcases hx : p x with _ | _
      · rw [List.cons_append, List.find?_cons, hx]
        exact ih (by rwa [hx] at h)
      · rw [hx] at h
        cases h

/-- A trivial extractor for the concrete ingestion examples. -/
def cexExtractor : Extractor := { clean := fun s => s, title := fun _ _ => "T" }

/-- The concrete file whose content is ingested twice. -/
def cexFile : IngFile := { path := "b/a.md", rel := "a.md", content := "hi" }

/-- Deterministic database id generators for the examples. -/
def cexDocId (n : ℕ) : String := "doc" ++ toString n

def cexRowId (n : ℕ) : String := "row" ++ toString n

def cexEmbed (_ : String) : List ℚ := [1]

set_option maxRecDepth 40000 in
/-- C5 counterexample: ingesting the same content twice with
`run_ingestion_pipeline` creates no new document or chunks on the second
run — but that run reports the file under `processed_documents` (with
zero created chunks), not under `skipped_documents`, contradicting
"reports the file as skipped/short-circuited rather than processed". -/
theorem ingestion_rerun_cex :
    (IngestionService.run_ingestion_pipeline cexExtractor cexEmbed cexDocId cexRowId
      [cexFile]
      (IngestionService.run_ingestion_pipeline cexExtractor cexEmbed cexDocId cexRowId
        [cexFile] ⟨[], [], 0⟩).2).1 =
      { processed_documents := 1, created_chunks := 0, skipped_documents := 0,
        errors := [] }
    ∧ (IngestionService.run_ingestion_pipeline cexExtractor cexEmbed cexDocId cexRowId
        [cexFile]
        (IngestionService.run_ingestion_pipeline cexExtractor cexEmbed cexDocId cexRowId
          [cexFile] ⟨[], [], 0⟩).2).2 =
      (IngestionService.run_ingestion_pipeline cexExtractor cexEmbed cexDocId cexRowId
        [cexFile] ⟨[], [], 0⟩).2
    ∧ (IngestionService.run_ingestion_pipeline cexExtractor cexEmbed cexDocId cexRowId
        [cexFile] ⟨[], [], 0⟩).1.created_chunks = 1 := by
  decide

/-- C5 (amended): when a document with the file's content checksum already
exists, `process_document` returns it with zero new chunks and an
unchanged state; a single-file `run_incremental_ingestion` reports it as
skipped; but a single-file `run_ingestion_pipeline` counts it under
`processed_documents` (with zero created chunks), not as skipped. After
any successful `process_document`, reprocessing the same content
short-circuits with zero new chunks and an unchanged state. -/
theorem ingestion_short_circuit (ext : Extractor) (embed : String → List ℚ)
    (docId rowId : ℕ → String) (st : IngState) (f : IngFile) (d : DocumentRec)
    (h : IngestionService.find_by_checksum st (calculate_sha256 f.content) = some d) :
    IngestionService.process_document ext embed docId rowId st f = Except.ok (d, [], st)
    ∧ IngestionService.run_incremental_ingestion ext embed docId rowId [f] st =
      ({ processed_documents := 0, created_chunks := 0, skipped_documents := 1,
         errors := [] }, st)
    ∧ IngestionService.run_ingestion_pipeline ext embed docId rowId [f] st =
      ({ processed_documents := 1, created_chunks := 0, skipped_documents := 0,
         errors := [] }, st)
    ∧ (∀ (st0 st2 : IngState) (d2 : DocumentRec) (rows2 : List ChunkRec),
        IngestionService.process_document ext embed docId rowId st0 f =
          Except.ok (d2, rows2, st2) →
        ∃ d3, IngestionService.process_document ext embed docId rowId st2 f =
          Except.ok (d3, [], st2)) := by
  have hp : IngestionService.process_document ext embed docId rowId st f =
      Except.ok (d, [], st) := by
    simp only [IngestionService.process_document, h]
  refine ⟨hp, ?_, ?_, ?_⟩
  · simp [IngestionService.run_incremental_ingestion, h]
  · simp [IngestionService.run_ingestion_pipeline, hp]
  · intro st0 st2 d2 rows2 hok
    simp only [IngestionService.process_document] at hok ⊢
    cases hfind : IngestionService.find_by_checksum st0 (calculate_sha256 f.content) with
    | some e =>
        rw [hfind] at hok
        simp only [Except.ok.injEq, Prod.mk.injEq] at hok
        obtain ⟨-, -, hst⟩ := hok
        subst hst
        exact ⟨e, by rw [hfind]⟩
    | none =>
        rw [hfind] at hok
        by_cases hdup : (st0.documents.any fun dd => dd.source_path == f.rel) = true
        · rw [if_pos hdup] at hok
          cases hok
        · rw [if_neg hdup] at hok
          simp only [Except.ok.injEq, Prod.mk.injEq] at hok
          obtain ⟨-, -, hst⟩ := hok
          have hfind2 : IngestionService.find_by_checksum st2
              (calculate_sha256 f.content) =
              some { id := docId st0.fresh, source_path := f.rel,
                     title := ext.title f.path f.content,
                     checksum := calculate_sha256 f.content,
                     content := ext.clean f.content } := by
            rw [← hst]
            unfold IngestionService.find_by_checksum at hfind ⊢
            rw [find?_append_of_none _ _ _ hfind]
            simp [List.find?_cons]
          exact ⟨_, by rw [hfind2]⟩

/-- The pre-existing document of the C5 witness state. -/
def witDoc : DocumentRec :=
  { id := "doc0", source_path := "a.md", title := "T",
    checksum := calculate_sha256 "hi", content := "hi" }

/-- A state that already holds `witDoc`. -/
def witState : IngState := { documents := [witDoc], chunks := [], fresh := 1 }

set_option maxRecDepth 40000 in
/-- Witness for the amended C5 at the concrete already-ingested file. -/
theorem ingestion_short_circuit_witness :
    IngestionService.process_document cexExtractor cexEmbed cexDocId cexRowId
      witState cexFile = Except.ok (witDoc, [], witState)
    ∧ IngestionService.run_incremental_ingestion cexExtractor cexEmbed cexDocId
        cexRowId [cexFile] witState =
      ({ processed_documents := 0, created_chunks := 0, skipped_documents := 1,
         errors := [] }, witState)
    ∧ IngestionService.run_ingestion_pipeline cexExtractor cexEmbed cexDocId
        cexRowId [cexFile] witState =
      ({ processed_documents := 1, created_chunks := 0, skipped_documents := 0,
         errors := [] }, witState) :=
  have h : IngestionService.find_by_checksum witState
      (calculate_sha256 cexFile.content) = some witDoc := by decide
  ⟨(ingestion_short_circuit cexExtractor cexEmbed cexDocId cexRowId witState cexFile
      witDoc h).1,
   (ingestion_short_circuit cexExtractor cexEmbed cexDocId cexRowId witState cexFile
      witDoc h).2.1,
   (ingestion_short_circuit cexExtractor cexEmbed cexDocId cexRowId witState cexFile
      witDoc h).2.2.1⟩

end RagPipeline
